import Mathlib

/-!
Verification of the GPIO controller core (`scripts/rpi_gpio_controller.py`).

The Python program keeps a dictionary `configured_pins` mapping a BCM pin
number to a small record (`direction`, optional `state`, optional `pull`,
`name`), mediates every hardware call through the `GPIO` module, and saves
the persisted subset of the record to a JSON file after each mutation.

The shallow embedding below mirrors that code:
  - the dictionary becomes an association list with Python-dict update
    semantics (`setPin` replaces in place, otherwise appends);
  - the `GPIO` module becomes an oracle `Hw` saying which calls succeed,
    and each operation also returns the list of hardware calls it issued
    plus the number of `save_config` attempts it made;
  - a Python exception raised by a hardware call is modelled by the
    corresponding oracle field being `false` (or `none` for reads), and the
    operation's result reproduces exactly the state the `except` handler
    leaves behind.
-/

namespace RpiGpio

/-- Levels as the integers the Python code uses: `GPIO.LOW = 0`. -/
def LOW : Nat := 0

/-- `GPIO.HIGH = 1`. -/
def HIGH : Nat := 1

/-- One value of the `configured_pins` dictionary.  `direction` is the raw
string the code stores; `state` and `pull` model the optional dictionary
keys of the same names (`none` = key absent); `name` is the custom label. -/
structure PinCfg where
  direction : String
  state : Option Nat := none
  pull : Option String := none
  name : String := ""
deriving DecidableEq, Repr

/-- The `configured_pins` dictionary, as an insertion-ordered association
list (Python dicts preserve insertion order). -/
abbrev ConfiguredPins := List (Nat × PinCfg)

/-- Dictionary lookup: first entry whose key matches. -/
def lookupPin : ConfiguredPins → Nat → Option PinCfg
  | [], _ => none
  | (q, c) :: rest, p => if q = p then some c else lookupPin rest p

/-- Python dict assignment `d[p] = c`: replace in place if the key exists,
otherwise append at the end. -/
def setPin : ConfiguredPins → Nat → PinCfg → ConfiguredPins
  | [], p, c => [(p, c)]
  | (q, d) :: rest, p, c =>
      if q = p then (p, c) :: rest else (q, d) :: setPin rest p c

/-- `d[p]['state'] = v`: update the (unique) entry with key `p` in place. -/
def updState : ConfiguredPins → Nat → Nat → ConfiguredPins
  | [], _, _ => []
  | (q, c) :: rest, p, v =>
      if q = p then (q, { c with state := some v }) :: rest
      else (q, c) :: updState rest p v

/-- `d[p]['name'] = s`: update the (unique) entry with key `p` in place. -/
def updName : ConfiguredPins → Nat → String → ConfiguredPins
  | [], _, _ => []
  | (q, c) :: rest, p, s =>
      if q = p then (q, { c with name := s }) :: rest
      else (q, c) :: updName rest p s

/-- The keys of the dictionary, in order. -/
def keys (m : ConfiguredPins) : List Nat := m.map Prod.fst

/-- The compiled-in `PIN_MAP`: physical header position to
(optional BCM number, label, default function), in source order. -/
def PIN_MAP : List (Nat × Option Nat × String × String) :=
  [ (1,  (none,    "3.3V",   "Power")),
    (2,  (none,    "5V",     "Power")),
    (3,  (some 2,  "GPIO2",  "I2C SDA")),
    (4,  (none,    "5V",     "Power")),
    (5,  (some 3,  "GPIO3",  "I2C SCL")),
    (6,  (none,    "GND",    "Ground")),
    (7,  (some 4,  "GPIO4",  "GPCLK0")),
    (8,  (some 14, "GPIO14", "UART TX")),
    (9,  (none,    "GND",    "Ground")),
    (10, (some 15, "GPIO15", "UART RX")),
    (11, (some 17, "GPIO17", "GPIO")),
    (12, (some 18, "GPIO18", "PWM0")),
    (13, (some 27, "GPIO27", "GPIO")),
    (14, (none,    "GND",    "Ground")),
    (15, (some 22, "GPIO22", "GPIO")),
    (16, (some 23, "GPIO23", "GPIO")),
    (17, (none,    "3.3V",   "Power")),
    (18, (some 24, "GPIO24", "GPIO")),
    (19, (some 10, "GPIO10", "SPI MOSI")),
    (20, (none,    "GND",    "Ground")),
    (21, (some 9,  "GPIO9",  "SPI MISO")),
    (22, (some 25, "GPIO25", "GPIO")),
    (23, (some 11, "GPIO11", "SPI SCLK")),
    (24, (some 8,  "GPIO8",  "SPI CE0")),
    (25, (none,    "GND",    "Ground")),
    (26, (some 7,  "GPIO7",  "SPI CE1")),
    (27, (some 0,  "GPIO0",  "ID_SD")),
    (28, (some 1,  "GPIO1",  "ID_SC")),
    (29, (some 5,  "GPIO5",  "GPIO")),
    (30, (none,    "GND",    "Ground")),
    (31, (some 6,  "GPIO6",  "GPIO")),
    (32, (some 12, "GPIO12", "PWM0")),
    (33, (some 13, "GPIO13", "PWM1")),
    (34, (none,    "GND",    "Ground")),
    (35, (some 19, "GPIO19", "SPI MISO")),
    (36, (some 16, "GPIO16", "GPIO")),
    (37, (some 26, "GPIO26", "GPIO")),
    (38, (some 20, "GPIO20", "SPI MOSI")),
    (39, (none,    "GND",    "Ground")),
    (40, (some 21, "GPIO21", "SPI SCLK")) ]

/-- `[bcm for bcm, _, _ in self.PIN_MAP.values() if bcm is not None]`. -/
def validPins : List Nat := PIN_MAP.filterMap fun e => e.2.1

/-- Hardware oracle: which `GPIO` calls succeed.  A `false` / `none`
answer models the call raising an exception; `inputRes p = some v` models
`GPIO.input(p)` returning level `v`.  `saveOk` models whether the file
write inside `save_config` succeeds (that function catches its own
exceptions and returns a boolean, so it never raises). -/
structure Hw where
  setupOk : Nat → Bool
  outputOk : Nat → Bool
  inputRes : Nat → Option Nat
  cleanupOk : Bool
  saveOk : Bool

/-- A hardware oracle on which every call succeeds and every read gives 0. -/
def allOkHw : Hw :=
  { setupOk := fun _ => true, outputOk := fun _ => true,
    inputRes := fun _ => some 0, cleanupOk := true, saveOk := true }

/-- One attempted call into the `GPIO` module. -/
inductive HwCall where
  | setup (pin : Nat)
  | output (pin : Nat) (level : Nat)
  | input (pin : Nat)
  | cleanup
deriving DecidableEq, Repr

/-- The failure kinds of the design's error taxonomy.  The code reports
them as printed messages; `wrongDirection` exists in the taxonomy but is
never produced by the code. -/
inductive Err where
  | unknownPin
  | notConfigured
  | wrongDirection
  | hardwareFault
  | invalidOption
deriving DecidableEq, Repr

/-- Result of one session operation: the dictionary afterwards, the
hardware calls attempted in order, how many times `save_config` was
attempted, the error reported (if any), and which pins of a bulk
operation failed. -/
structure OpResult where
  pins : ConfiguredPins
  calls : List HwCall
  saves : Nat
  err : Option Err := none
  failed : List Nat := []
deriving DecidableEq, Repr

/-- One entry of the persisted JSON file.  `save_config` always writes
`direction`, `pull` and `name`; `state` models a level key that a file
could carry (the program itself never writes one). -/
structure SavedEntry where
  direction : String
  pull : String
  name : String
  state : Option Nat := none
deriving DecidableEq, Repr

/-- `save_config`: for every configured pin emit
`direction`, `cfg.get('pull', 'none')`, `cfg.get('name', '')`,
and no level. -/
def saveConfig (m : ConfiguredPins) : List (Nat × SavedEntry) :=
  m.map fun e =>
    (e.1, { direction := e.2.direction, pull := e.2.pull.getD "none",
            name := e.2.name, state := none })

/-- The loop body of `load_config`, threading the dictionary being built.
Per entry: outputs are set up and driven LOW before being recorded with
`state = LOW`; inputs are set up with their pull and recorded without a
state; a raising hardware call skips the entry (warning) and the loop
continues. -/
def loadLoop (hw : Hw) : List (Nat × SavedEntry) → ConfiguredPins →
    ConfiguredPins × List HwCall
  | [], m => (m, [])
  | (pin, cfg) :: rest, m =>
    if cfg.direction = "output" then
      if hw.setupOk pin then
        if hw.outputOk pin then
          let m1 := setPin m pin
            { direction := "output", state := some LOW, pull := none,
              name := cfg.name }
          let r := loadLoop hw rest m1
          (r.1, HwCall.setup pin :: HwCall.output pin LOW :: r.2)
        else
          let r := loadLoop hw rest m
          (r.1, HwCall.setup pin :: HwCall.output pin LOW :: r.2)
      else
        let r := loadLoop hw rest m
        (r.1, HwCall.setup pin :: r.2)
    else
      if hw.setupOk pin then
        let m1 := setPin m pin
          { direction := "input", state := none, pull := some cfg.pull,
            name := cfg.name }
        let r := loadLoop hw rest m1
        (r.1, HwCall.setup pin :: r.2)
      else
        let r := loadLoop hw rest m
        (r.1, HwCall.setup pin :: r.2)

/-- `load_config` starting from the empty dictionary built in `__init__`. -/
def loadConfig (data : List (Nat × SavedEntry)) (hw : Hw) :
    ConfiguredPins × List HwCall :=
  loadLoop hw data []

/-- The output-pin record `setup_pin` stores for choice "1". -/
def outCfg (name : String) : PinCfg :=
  { direction := "output", state := some LOW, pull := none, name := name }

/-- The input-pin record `setup_pin` stores for choices "2"/"3"/"4". -/
def inCfg (pull name : String) : PinCfg :=
  { direction := "input", state := none, pull := some pull, name := name }

/-- `setup_pin`: validate the pin against `validPins`, then configure it.
For choice "1" the code calls `GPIO.setup`, assigns the dictionary entry,
and only then calls `GPIO.output(pin, LOW)`; a raise from that last call
is caught after the entry was already replaced, and no save happens. -/
def setupPin (m : ConfiguredPins) (pin : Nat) (name : String)
    (choice : String) (hw : Hw) : OpResult :=
  if pin ∈ validPins then
    if choice = "1" then
      if hw.setupOk pin then
        let m1 := setPin m pin (outCfg name)
        if hw.outputOk pin then
          { pins := m1, calls := [HwCall.setup pin, HwCall.output pin LOW],
            saves := 1 }
        else
          { pins := m1, calls := [HwCall.setup pin, HwCall.output pin LOW],
            saves := 0, err := some Err.hardwareFault }
      else
        { pins := m, calls := [HwCall.setup pin], saves := 0,
          err := some Err.hardwareFault }
    else if choice = "2" ∨ choice = "3" ∨ choice = "4" then
      if hw.setupOk pin then
        let pull := if choice = "2" then "none"
                    else if choice = "3" then "up" else "down"
        { pins := setPin m pin (inCfg pull name),
          calls := [HwCall.setup pin], saves := 1 }
      else
        { pins := m, calls := [HwCall.setup pin], saves := 0,
          err := some Err.hardwareFault }
    else
      { pins := m, calls := [], saves := 0, err := some Err.invalidOption }
  else
    { pins := m, calls := [], saves := 0, err := some Err.unknownPin }

/-- `control_pin`: dispatches on the configured direction.  An output pin
gets the write menu (HIGH / LOW / toggle), each successful write updating
the cached `state` and saving; an input pin is immediately read from
hardware and the read value cached into `state`, with no save. -/
def controlPin (m : ConfiguredPins) (pin : Nat) (choice : String)
    (hw : Hw) : OpResult :=
  match lookupPin m pin with
  | none => { pins := m, calls := [], saves := 0,
              err := some Err.notConfigured }
  | some cfg =>
    if cfg.direction = "output" then
      if choice = "1" then
        if hw.outputOk pin then
          { pins := updState m pin HIGH, calls := [HwCall.output pin HIGH],
            saves := 1 }
        else
          { pins := m, calls := [HwCall.output pin HIGH], saves := 0,
            err := some Err.hardwareFault }
      else if choice = "2" then
        if hw.outputOk pin then
          { pins := updState m pin LOW, calls := [HwCall.output pin LOW],
            saves := 1 }
        else
          { pins := m, calls := [HwCall.output pin LOW], saves := 0,
            err := some Err.hardwareFault }
      else if choice = "3" then
        let cur := cfg.state.getD LOW
        let new := if cur = HIGH then LOW else HIGH
        if hw.outputOk pin then
          { pins := updState m pin new, calls := [HwCall.output pin new],
            saves := 1 }
        else
          { pins := m, calls := [HwCall.output pin new], saves := 0,
            err := some Err.hardwareFault }
      else
        { pins := m, calls := [], saves := 0, err := some Err.invalidOption }
    else
      match hw.inputRes pin with
      | some v =>
        { pins := updState m pin v, calls := [HwCall.input pin], saves := 0 }
      | none =>
        { pins := m, calls := [HwCall.input pin], saves := 0,
          err := some Err.hardwareFault }

/-- The configured output pins, in dictionary order. -/
def outputPinsOf (m : ConfiguredPins) : List Nat :=
  (m.filter fun e => e.2.direction = "output").map Prod.fst

/-- The configured input pins, in dictionary order. -/
def inputPinsOf (m : ConfiguredPins) : List Nat :=
  (m.filter fun e => e.2.direction = "input").map Prod.fst

/-- The loop of `set_all_outputs` over the sorted output pins: a failing
`GPIO.output` leaves that pin's cached state alone, is recorded as an
error line, and the loop continues. -/
def setAllLoop (hw : Hw) (lvl : Nat) :
    List Nat → ConfiguredPins → ConfiguredPins × List HwCall × List Nat
  | [], m => (m, [], [])
  | pin :: rest, m =>
    if hw.outputOk pin then
      let r := setAllLoop hw lvl rest (updState m pin lvl)
      (r.1, HwCall.output pin lvl :: r.2.1, r.2.2)
    else
      let r := setAllLoop hw lvl rest m
      (r.1, HwCall.output pin lvl :: r.2.1, pin :: r.2.2)

/-- `set_all_outputs(state)`: nothing at all happens when no output pin is
configured (only a message is printed); otherwise the sorted output pins
are written best-effort and one save is attempted after the loop. -/
def setAllOutputs (m : ConfiguredPins) (lvl : Nat) (hw : Hw) : OpResult :=
  let outs := List.insertionSort (· ≤ ·) (outputPinsOf m)
  if outs = [] then
    { pins := m, calls := [], saves := 0 }
  else
    let r := setAllLoop hw lvl outs m
    { pins := r.1, calls := r.2.1, saves := 1, failed := r.2.2 }

/-- The loop of `read_all_inputs` over the sorted input pins: a successful
read caches the level into `state`; a raising read is reported and skipped. -/
def readAllLoop (hw : Hw) :
    List Nat → ConfiguredPins → ConfiguredPins × List HwCall
  | [], m => (m, [])
  | pin :: rest, m =>
    match hw.inputRes pin with
    | some v =>
      let r := readAllLoop hw rest (updState m pin v)
      (r.1, HwCall.input pin :: r.2)
    | none =>
      let r := readAllLoop hw rest m
      (r.1, HwCall.input pin :: r.2)

/-- `read_all_inputs`: reads every configured input pin; never saves. -/
def readAllInputs (m : ConfiguredPins) (hw : Hw) : OpResult :=
  let ins := List.insertionSort (· ≤ ·) (inputPinsOf m)
  let r := readAllLoop hw ins m
  { pins := r.1, calls := r.2, saves := 0 }

/-- `rename_pin`: requires the pin to be configured; stores the new name
(empty string clears it) and saves. -/
def renamePin (m : ConfiguredPins) (pin : Nat) (newName : String) :
    OpResult :=
  match lookupPin m pin with
  | none => { pins := m, calls := [], saves := 0,
              err := some Err.notConfigured }
  | some _ =>
    { pins := updName m pin newName, calls := [], saves := 1 }

/-- `cleanup_all` after the operator confirmed: `GPIO.cleanup()`, clear the
dictionary, save the (now empty) configuration.  A raise from
`GPIO.cleanup` is caught before the dictionary is cleared. -/
def cleanupAll (m : ConfiguredPins) (confirm : String) (hw : Hw) :
    OpResult :=
  if confirm = "yes" ∨ confirm = "y" then
    if hw.cleanupOk then
      { pins := [], calls := [HwCall.cleanup], saves := 1 }
    else
      { pins := m, calls := [HwCall.cleanup], saves := 0,
        err := some Err.hardwareFault }
  else
    { pins := m, calls := [], saves := 0 }

/-- ANSI reset sequence used by the display strings. -/
def RESET : String := "\x1b[0m"

/-- ANSI color prefixes the display strings use. -/
def GREEN : String := "\x1b[92m"

/-- ANSI red. -/
def RED : String := "\x1b[91m"

/-- ANSI blue. -/
def BLUE : String := "\x1b[94m"

/-- ANSI gray. -/
def GRAY : String := "\x1b[90m"

/-- The gray open circle used both for an unconfigured pin and for an
input pin whose hardware read raised. -/
def grayCircle : String := GRAY ++ "○" ++ RESET

/-- Green filled dot: configured output, cached state HIGH. -/
def greenDot : String := GREEN ++ "●" ++ RESET

/-- Red filled dot: configured output, cached state LOW. -/
def redDot : String := RED ++ "●" ++ RESET

/-- Blue filled dot: configured input reading HIGH. -/
def blueDot : String := BLUE ++ "●" ++ RESET

/-- Gray filled dot: configured input reading LOW. -/
def grayDot : String := GRAY ++ "●" ++ RESET

/-- `get_pin_status_symbol`: the symbol shown for a pin, plus the hardware
calls the function makes.  Unconfigured and output pins touch no hardware;
an input pin is probed live, a raising probe being caught and rendered as
the gray open circle. -/
def getPinStatusSymbol (m : ConfiguredPins) (pin : Nat) (hw : Hw) :
    String × List HwCall :=
  match lookupPin m pin with
  | none => (grayCircle, [])
  | some cfg =>
    if cfg.direction = "output" then
      if cfg.state.getD LOW = HIGH then (greenDot, []) else (redDot, [])
    else
      match hw.inputRes pin with
      | some v => (if v ≠ 0 then (blueDot, [HwCall.input pin])
                   else (grayDot, [HwCall.input pin]))
      | none => (grayCircle, [HwCall.input pin])

/-- The `State` column of `show_pin_details` for one configured pin, plus
the hardware calls made: an output pin's level comes from the cached
`state` key (`config.get('state') == GPIO.HIGH`), an input pin's from a
live read with `"ERROR"` as the caught-exception fallback. -/
def pinDetailsState (cfg : PinCfg) (pin : Nat) (hw : Hw) :
    String × List HwCall :=
  if cfg.direction = "output" then
    (if cfg.state = some HIGH then "HIGH" else "LOW", [])
  else
    match hw.inputRes pin with
    | some v => (if v ≠ 0 then "HIGH" else "LOW", [HwCall.input pin])
    | none => ("ERROR", [HwCall.input pin])

/-- The externally visible steps of a termination path. -/
inductive ExitEvent where
  | saveAttempt
  | releaseAttempt
deriving DecidableEq, Repr

/-- The `save_config()` call on an exit path: its body is wrapped in a
universal exception handler that returns `False`, so the call itself
never raises, whatever `hw.saveOk` says. -/
def saveConfigCall (hw : Hw) : Bool := hw.saveOk

/-- `GPIO.cleanup()` on an exit path: raises when the release fails. -/
def releaseCall (hw : Hw) : Except Unit Unit :=
  if hw.cleanupOk then Except.ok () else Except.error ()

/-- The `q` branch of `run`: `save_config(); GPIO.cleanup(); break`.
`save_config` cannot raise, so the release is always attempted; a raise
from the release escapes to the outer handler, which attempts
`GPIO.cleanup()` once more. -/
def quitExit (hw : Hw) : List ExitEvent :=
  let _saved := saveConfigCall hw
  match releaseCall hw with
  | Except.ok _ => [ExitEvent.saveAttempt, ExitEvent.releaseAttempt]
  | Except.error _ =>
    [ExitEvent.saveAttempt, ExitEvent.releaseAttempt,
     ExitEvent.releaseAttempt]

/-- The `KeyboardInterrupt` handler of `run`: `save_config();
GPIO.cleanup()`, in that order, the save again unable to raise. -/
def interruptExit (hw : Hw) : List ExitEvent :=
  let _saved := saveConfigCall hw
  match releaseCall hw with
  | Except.ok _ => [ExitEvent.saveAttempt, ExitEvent.releaseAttempt]
  | Except.error _ => [ExitEvent.saveAttempt, ExitEvent.releaseAttempt]

/-- The sorted list of configured output pins that `set_all_outputs`
iterates (`sorted(output_pins)` in the source). -/
def sortedOutputPins (m : ConfiguredPins) : List Nat :=
  List.insertionSort (· ≤ ·) (outputPinsOf m)

/-- A snapshot is valid when its keys are distinct (a JSON object cannot
repeat a key) and each entry has a recognised direction, with output pins
carrying the `pull` value `"none"` that `save_config` itself writes for
them. -/
def validSnapshot (s : List (Nat × SavedEntry)) : Prop :=
  (s.map Prod.fst).Nodup ∧
  ∀ e ∈ s, (e.2.direction = "input" ∨ e.2.direction = "output") ∧
    (e.2.direction = "output" → e.2.pull = "none")

instance (s : List (Nat × SavedEntry)) : Decidable (validSnapshot s) := by
  unfold validSnapshot
  infer_instance

/-- A persisted snapshot that (against the program's own convention)
carries a stale HIGH level for pin 17; restore must ignore it. -/
def c1data : List (Nat × SavedEntry) :=
  [(17, { direction := "output", pull := "none", name := "relay",
          state := some HIGH })]

/-- A valid two-pin snapshot: one output, one input with pull-up. -/
def c2snap : List (Nat × SavedEntry) :=
  [(17, { direction := "output", pull := "none", name := "relay" }),
   (4, { direction := "input", pull := "up", name := "" })]

/-- Pin 2 configured as an input with pull-up, the prior state for the C3
scenario. -/
def c3prior : PinCfg :=
  { direction := "input", state := none, pull := some "up", name := "a" }

/-- Hardware on which `GPIO.setup` succeeds but every `GPIO.output`
raises. -/
def c3hw : Hw :=
  { setupOk := fun _ => true, outputOk := fun _ => false,
    inputRes := fun _ => some 0, cleanupOk := true, saveOk := true }

/-- A session with only an input pin configured. -/
def c4onlyInput : ConfiguredPins := [(4, inCfg "none" "")]

/-- The spec scenario's session: outputs 2 and 3. -/
def c4m : ConfiguredPins := [(2, outCfg ""), (3, outCfg "")]

/-- Hardware with an injected write fault on pin 3 only. -/
def c4hw : Hw :=
  { setupOk := fun _ => true, outputOk := fun p => p != 3,
    inputRes := fun _ => some 0, cleanupOk := true, saveOk := true }

/-- A session with pin 2 configured as an input. -/
def c5m : ConfiguredPins := [(2, inCfg "none" "")]

/-- Hardware whose reads return HIGH. -/
def c5hwHigh : Hw :=
  { setupOk := fun _ => true, outputOk := fun _ => true,
    inputRes := fun _ => some 1, cleanupOk := true, saveOk := true }

/-- A session with pin 17 configured as an output. -/
def c5out : ConfiguredPins := [(17, outCfg "x")]

/-- A session with three configured pins, for the cleanup scenario. -/
def c6m : ConfiguredPins :=
  [(17, outCfg ""), (4, inCfg "up" ""), (22, outCfg "")]

/-- Hardware on which every `GPIO.input` raises. -/
def c9hwFail : Hw :=
  { setupOk := fun _ => true, outputOk := fun _ => true,
    inputRes := fun _ => none, cleanupOk := true, saveOk := true }

theorem keys_cons (e : Nat × PinCfg) (rest : ConfiguredPins) :
    keys (e :: rest) = e.1 :: keys rest := rfl

theorem lookupPin_setPin_self (m : ConfiguredPins) (p : Nat) (c : PinCfg) :
    lookupPin (setPin m p c) p = some c := by
  induction m with
  | nil => simp [setPin, lookupPin]
  | cons e rest ih =>
    obtain ⟨a, d⟩ := e
    by_cases h : a = p
    · simp [setPin, h, lookupPin]
    · simp [setPin, h, lookupPin, ih]

theorem lookupPin_setPin_ne (m : ConfiguredPins) (p q : Nat) (c : PinCfg)
    (h : q ≠ p) : lookupPin (setPin m p c) q = lookupPin m q := by
  have h' : ¬ p = q := fun hh => h hh.symm
  induction m with
  | nil => simp [setPin, lookupPin, h']
  | cons e rest ih =>
    obtain ⟨a, d⟩ := e
    by_cases ha : a = p
    · subst ha
      simp [setPin, lookupPin, h']
    · by_cases haq : a = q
      · simp [setPin, ha, lookupPin, haq, h]
      · simp [setPin, ha, lookupPin, haq, ih]

theorem mem_keys_setPin (m : ConfiguredPins) (p : Nat) (c : PinCfg)
    (q : Nat) : q ∈ keys (setPin m p c) ↔ q ∈ keys m ∨ q = p := by
  induction m with
  | nil => simp [setPin, keys]
  | cons e rest ih =>
    obtain ⟨a, d⟩ := e
    by_cases h : a = p
    · subst h
      have hs : setPin ((a, d) :: rest) a c = (a, c) :: rest := by
        simp [setPin]
      rw [hs, keys_cons, keys_cons]
      simp only [List.mem_cons]
      tauto
    · have hs : setPin ((a, d) :: rest) p c = (a, d) :: setPin rest p c := by
        simp [setPin, h]
      rw [hs, keys_cons, keys_cons]
      simp only [List.mem_cons, ih]
      tauto

theorem setPin_of_notMem (m : ConfiguredPins) (p : Nat) (c : PinCfg)
    (h : p ∉ keys m) : setPin m p c = m ++ [(p, c)] := by
  induction m with
  | nil => simp [setPin]
  | cons e rest ih =>
    obtain ⟨a, d⟩ := e
    rw [keys_cons, List.mem_cons] at h
    push_neg at h
    have h1 : ¬ a = p := fun hh => h.1 hh.symm
    simp only [setPin, if_neg h1, ih h.2, List.cons_append]

theorem keys_updState (m : ConfiguredPins) (p v : Nat) :
    keys (updState m p v) = keys m := by
  induction m with
  | nil => rfl
  | cons e rest ih =>
    obtain ⟨a, d⟩ := e
    by_cases h : a = p
    · simp [updState, h, keys_cons]
    · simp only [updState, if_neg h, keys_cons, ih]

theorem keys_updName (m : ConfiguredPins) (p : Nat) (s : String) :
    keys (updName m p s) = keys m := by
  induction m with
  | nil => rfl
  | cons e rest ih =>
    obtain ⟨a, d⟩ := e
    by_cases h : a = p
    · simp [updName, h, keys_cons]
    · simp only [updName, if_neg h, keys_cons, ih]

theorem lookupPin_updState (m : ConfiguredPins) (p v q : Nat) :
    lookupPin (updState m p v) q =
      if q = p then (lookupPin m q).map fun c => { c with state := some v }
      else lookupPin m q := by
  induction m with
  | nil =>
    simp only [updState, lookupPin, Option.map_none']
    split <;> rfl
  | cons e rest ih =>
    obtain ⟨a, d⟩ := e
    by_cases hap : a = p
    · subst hap
      by_cases haq : a = q
      · subst haq
        simp [updState, lookupPin]
      · simp only [updState, if_pos rfl, lookupPin, if_neg haq]
        have hqa : ¬ q = a := fun hh => haq hh.symm
        rw [if_neg hqa]
    · by_cases haq : a = q
      · subst haq
        have hqp : ¬ a = p := hap
        simp [updState, lookupPin, hap, hqp]
      · simp only [updState, if_neg hap, lookupPin, if_neg haq]
        exact ih

theorem lookupPin_updName (m : ConfiguredPins) (p : Nat) (s : String)
    (q : Nat) :
    lookupPin (updName m p s) q =
      if q = p then (lookupPin m q).map fun c => { c with name := s }
      else lookupPin m q := by
  induction m with
  | nil =>
    simp only [updName, lookupPin, Option.map_none']
    split <;> rfl
  | cons e rest ih =>
    obtain ⟨a, d⟩ := e
    by_cases hap : a = p
    · subst hap
      by_cases haq : a = q
      · subst haq
        simp [updName, lookupPin]
      · simp only [updName, if_pos rfl, lookupPin, if_neg haq]
        have hqa : ¬ q = a := fun hh => haq hh.symm
        rw [if_neg hqa]
    · by_cases haq : a = q
      · subst haq
        have hqp : ¬ a = p := hap
        simp [updName, lookupPin, hap, hqp]
      · simp only [updName, if_neg hap, lookupPin, if_neg haq]
        exact ih

theorem lookupPin_eq_none (m : ConfiguredPins) (q : Nat) :
    lookupPin m q = none ↔ q ∉ keys m := by
  induction m with
  | nil => simp [lookupPin, keys]
  | cons e rest ih =>
    obtain ⟨a, d⟩ := e
    by_cases h : a = q
    · simp [lookupPin, keys_cons, h, ih]
    · simp [lookupPin, keys_cons, h, ih]
      exact fun _ hh => h hh.symm

theorem setAllLoop_calls (hw : Hw) (lvl : Nat) (l : List Nat)
    (m : ConfiguredPins) :
    (setAllLoop hw lvl l m).2.1 = l.map fun p => HwCall.output p lvl := by
  induction l generalizing m with
  | nil => rfl
  | cons p rest ih =>
    by_cases h : hw.outputOk p = true <;> simp [setAllLoop, h, ih]

theorem setAllLoop_failed (hw : Hw) (lvl : Nat) (l : List Nat)
    (m : ConfiguredPins) :
    (setAllLoop hw lvl l m).2.2 = l.filter fun p => !hw.outputOk p := by
  induction l generalizing m with
  | nil => rfl
  | cons p rest ih =>
    by_cases h : hw.outputOk p = true <;> simp [setAllLoop, h, ih]

theorem setAllLoop_keys (hw : Hw) (lvl : Nat) (l : List Nat)
    (m : ConfiguredPins) :
    keys (setAllLoop hw lvl l m).1 = keys m := by
  induction l generalizing m with
  | nil => rfl
  | cons p rest ih =>
    by_cases h : hw.outputOk p = true <;>
      simp [setAllLoop, h, ih, keys_updState]

theorem setAllLoop_lookup_notMem (hw : Hw) (lvl : Nat) (l : List Nat)
    (m : ConfiguredPins) (p : Nat) (h : p ∉ l) :
    lookupPin (setAllLoop hw lvl l m).1 p = lookupPin m p := by
  induction l generalizing m with
  | nil => rfl
  | cons a rest ih =>
    rw [List.mem_cons] at h
    push_neg at h
    by_cases ha : hw.outputOk a = true
    · simp only [setAllLoop, if_pos ha]
      rw [ih _ h.2, lookupPin_updState, if_neg h.1]
    · simp only [setAllLoop, if_neg ha]
      exact ih _ h.2

theorem setAllLoop_lookup_mem (hw : Hw) (lvl : Nat) (l : List Nat)
    (m : ConfiguredPins) (p : Nat) (hn : l.Nodup) (hp : p ∈ l) :
    lookupPin (setAllLoop hw lvl l m).1 p =
      if hw.outputOk p then
        (lookupPin m p).map fun c => { c with state := some lvl }
      else lookupPin m p := by
  induction l generalizing m with
  | nil => cases hp
  | cons a rest ih =>
    rw [List.nodup_cons] at hn
    rcases List.mem_cons.mp hp with h1 | h2
    · subst h1
      by_cases ha : hw.outputOk p = true
      · simp only [setAllLoop, if_pos ha]
        rw [setAllLoop_lookup_notMem hw lvl rest _ p hn.1,
          lookupPin_updState, if_pos rfl]
      · simp only [setAllLoop, if_neg ha]
        exact setAllLoop_lookup_notMem hw lvl rest m p hn.1
    · have hap : ¬ p = a := fun hh => hn.1 (hh ▸ h2)
      by_cases ha : hw.outputOk a = true
      · simp only [setAllLoop, if_pos ha]
        rw [ih _ hn.2 h2, lookupPin_updState, if_neg hap]
      · simp only [setAllLoop, if_neg ha]
        exact ih _ hn.2 h2

theorem readAllLoop_keys (hw : Hw) (l : List Nat) (m : ConfiguredPins) :
    keys (readAllLoop hw l m).1 = keys m := by
  induction l generalizing m with
  | nil => rfl
  | cons p rest ih =>
    cases h : hw.inputRes p <;> simp [readAllLoop, h, ih, keys_updState]

theorem loadLoop_keys_mono (hw : Hw) (data : List (Nat × SavedEntry))
    (m : ConfiguredPins) (p : Nat) (h : p ∈ keys m) :
    p ∈ keys (loadLoop hw data m).1 := by
  induction data generalizing m with
  | nil => exact h
  | cons e rest ih =>
    obtain ⟨pin, cfg⟩ := e
    by_cases hd : cfg.direction = "output"
    · by_cases hs : hw.setupOk pin = true
      · by_cases ho : hw.outputOk pin = true
        · simp only [loadLoop, if_pos hd, if_pos hs, if_pos ho]
          exact ih _ ((mem_keys_setPin _ _ _ _).mpr (Or.inl h))
        · simp only [loadLoop, if_pos hd, if_pos hs, if_neg ho]
          exact ih _ h
      · simp only [loadLoop, if_pos hd, if_neg hs]
        exact ih _ h
    · by_cases hs : hw.setupOk pin = true
      · simp only [loadLoop, if_neg hd, if_pos hs]
        exact ih _ ((mem_keys_setPin _ _ _ _).mpr (Or.inl h))
      · simp only [loadLoop, if_neg hd, if_neg hs]
        exact ih _ h

theorem loadLoop_lookup_notMem (hw : Hw) (data : List (Nat × SavedEntry))
    (m : ConfiguredPins) (p : Nat) (h : p ∉ data.map Prod.fst) :
    lookupPin (loadLoop hw data m).1 p = lookupPin m p := by
  induction data generalizing m with
  | nil => rfl
  | cons e rest ih =>
    obtain ⟨pin, cfg⟩ := e
    rw [List.map_cons, List.mem_cons] at h
    push_neg at h
    by_cases hd : cfg.direction = "output"
    · by_cases hs : hw.setupOk pin = true
      · by_cases ho : hw.outputOk pin = true
        · simp only [loadLoop, if_pos hd, if_pos hs, if_pos ho]
          rw [ih _ h.2, lookupPin_setPin_ne _ _ _ _ h.1]
        · simp only [loadLoop, if_pos hd, if_pos hs, if_neg ho]
          exact ih _ h.2
      · simp only [loadLoop, if_pos hd, if_neg hs]
        exact ih _ h.2
    · by_cases hs : hw.setupOk pin = true
      · simp only [loadLoop, if_neg hd, if_pos hs]
        rw [ih _ h.2, lookupPin_setPin_ne _ _ _ _ h.1]
      · simp only [loadLoop, if_neg hd, if_neg hs]
        exact ih _ h.2

theorem loadLoop_lookup_output (hw : Hw) (data : List (Nat × SavedEntry))
    (m : ConfiguredPins) (pin : Nat) (cfg : SavedEntry)
    (hnd : (data.map Prod.fst).Nodup) (hmem : (pin, cfg) ∈ data)
    (hd : cfg.direction = "output") (hs : hw.setupOk pin = true)
    (ho : hw.outputOk pin = true) :
    lookupPin (loadLoop hw data m).1 pin = some (outCfg cfg.name) := by
  induction data generalizing m with
  | nil => cases hmem
  | cons e rest ih =>
    obtain ⟨a, c⟩ := e
    rw [List.map_cons, List.nodup_cons] at hnd
    rcases List.mem_cons.mp hmem with h1 | h2
    · rw [Prod.mk.injEq] at h1
      obtain ⟨ha, hc⟩ := h1
      subst ha
      subst hc
      simp only [loadLoop, if_pos hd, if_pos hs, if_pos ho]
      rw [loadLoop_lookup_notMem hw rest _ pin hnd.1, lookupPin_setPin_self]
      rfl
    · by_cases hcd : c.direction = "output"
      · by_cases hcs : hw.setupOk a = true
        · by_cases hco : hw.outputOk a = true
          · simp only [loadLoop, if_pos hcd, if_pos hcs, if_pos hco]
            exact ih _ hnd.2 h2
          · simp only [loadLoop, if_pos hcd, if_pos hcs, if_neg hco]
            exact ih _ hnd.2 h2
        · simp only [loadLoop, if_pos hcd, if_neg hcs]
          exact ih _ hnd.2 h2
      · by_cases hcs : hw.setupOk a = true
        · simp only [loadLoop, if_neg hcd, if_pos hcs]
          exact ih _ hnd.2 h2
        · simp only [loadLoop, if_neg hcd, if_neg hcs]
          exact ih _ hnd.2 h2

theorem loadLoop_output_trace (hw : Hw) (data : List (Nat × SavedEntry))
    (m : ConfiguredPins) (pin : Nat) (cfg : SavedEntry)
    (hmem : (pin, cfg) ∈ data) (hd : cfg.direction = "output")
    (hs : hw.setupOk pin = true) (ho : hw.outputOk pin = true) :
    HwCall.output pin LOW ∈ (loadLoop hw data m).2 := by
  induction data generalizing m with
  | nil => cases hmem
  | cons e rest ih =>
    obtain ⟨a, c⟩ := e
    rcases List.mem_cons.mp hmem with h1 | h2
    · rw [Prod.mk.injEq] at h1
      obtain ⟨ha, hc⟩ := h1
      subst ha
      subst hc
      simp only [loadLoop, if_pos hd, if_pos hs, if_pos ho]
      exact List.mem_cons_of_mem _ (List.mem_cons_self _ _)
    · by_cases hcd : c.direction = "output"
      · by_cases hcs : hw.setupOk a = true
        · by_cases hco : hw.outputOk a = true
          · simp only [loadLoop, if_pos hcd, if_pos hcs, if_pos hco]
            exact List.mem_cons_of_mem _ (List.mem_cons_of_mem _ (ih _ h2))
          · simp only [loadLoop, if_pos hcd, if_pos hcs, if_neg hco]
            exact List.mem_cons_of_mem _ (List.mem_cons_of_mem _ (ih _ h2))
        · simp only [loadLoop, if_pos hcd, if_neg hcs]
          exact List.mem_cons_of_mem _ (ih _ h2)
      · by_cases hcs : hw.setupOk a = true
        · simp only [loadLoop, if_neg hcd, if_pos hcs]
          exact List.mem_cons_of_mem _ (ih _ h2)
        · simp only [loadLoop, if_neg hcd, if_neg hcs]
          exact List.mem_cons_of_mem _ (ih _ h2)

/-- What one persisted entry becomes in memory when every hardware call
succeeds: outputs are recorded at LOW with no pull key, inputs keep their
persisted pull and get no state key. -/
def loadedEntry (e : Nat × SavedEntry) : Nat × PinCfg :=
  (e.1,
    if e.2.direction = "output" then
      { direction := "output", state := some LOW, pull := none,
        name := e.2.name }
    else
      { direction := "input", state := none, pull := some e.2.pull,
        name := e.2.name })

theorem loadLoop_allOk (data : List (Nat × SavedEntry))
    (m : ConfiguredPins) (hnd : (data.map Prod.fst).Nodup)
    (hdisj : ∀ p ∈ data.map Prod.fst, p ∉ keys m) :
    (loadLoop allOkHw data m).1 = m ++ data.map loadedEntry := by
  induction data generalizing m with
  | nil => simp [loadLoop]
  | cons e rest ih =>
    obtain ⟨pin, cfg⟩ := e
    rw [List.map_cons, List.nodup_cons] at hnd
    have hpin : pin ∉ keys m := hdisj pin (by simp)
    have hok : allOkHw.setupOk pin = true := rfl
    have hok2 : allOkHw.outputOk pin = true := rfl
    by_cases hd : cfg.direction = "output"
    · simp only [loadLoop, if_pos hd, if_pos hok, if_pos hok2]
      rw [ih _ hnd.2 ?hdisj2]
      case hdisj2 =>
        intro p hp
        rw [mem_keys_setPin]
        push_neg
        refine ⟨hdisj p (by simp [hp]), ?_⟩
        intro hh
        exact hnd.1 (hh ▸ hp)
      rw [setPin_of_notMem _ _ _ hpin, List.append_assoc]
      simp [loadedEntry, hd]
    · simp only [loadLoop, if_neg hd, if_pos hok]
      rw [ih _ hnd.2 ?hdisj3]
      case hdisj3 =>
        intro p hp
        rw [mem_keys_setPin]
        push_neg
        refine ⟨hdisj p (by simp [hp]), ?_⟩
        intro hh
        exact hnd.1 (hh ▸ hp)
      rw [setPin_of_notMem _ _ _ hpin, List.append_assoc]
      simp [loadedEntry, hd]

theorem map_eq_of_forall {α β : Type} (f g : α → β) :
    ∀ l : List α, (∀ e ∈ l, f e = g e) → l.map f = l.map g := by
  intro l
  induction l with
  | nil => intro _; rfl
  | cons e rest ih =>
    intro h
    rw [List.map_cons, List.map_cons, h e (by simp),
      ih fun x hx => h x (by simp [hx])]

theorem outputPinsOf_nodup (m : ConfiguredPins) (h : (keys m).Nodup) :
    (outputPinsOf m).Nodup := by
  have hsub : List.Sublist (outputPinsOf m) (keys m) :=
    (List.filter_sublist m).map Prod.fst
  exact h.sublist hsub

theorem keys_setAllOutputs (m : ConfiguredPins) (lvl : Nat) (hw : Hw) :
    keys (setAllOutputs m lvl hw).pins = keys m := by
  by_cases h : List.insertionSort (· ≤ ·) (outputPinsOf m) = []
  · simp [setAllOutputs, h]
  · simp [setAllOutputs, h, setAllLoop_keys]

theorem keys_readAllInputs (m : ConfiguredPins) (hw : Hw) :
    keys (readAllInputs m hw).pins = keys m := by
  simp [readAllInputs, readAllLoop_keys]

theorem controlPin_pins_cases (m : ConfiguredPins) (pin : Nat)
    (choice : String) (hw : Hw) :
    (controlPin m pin choice hw).pins = m ∨
    ∃ v, (controlPin m pin choice hw).pins = updState m pin v := by
  cases hl : lookupPin m pin with
  | none => simp [controlPin, hl]
  | some cfg =>
    simp only [controlPin, hl]
    by_cases hd : cfg.direction = "output"
    · rw [if_pos hd]
      split_ifs <;>
        first
          | exact Or.inl rfl
          | exact Or.inr ⟨_, rfl⟩
    · rw [if_neg hd]
      cases hr : hw.inputRes pin with
      | none => exact Or.inl rfl
      | some v => exact Or.inr ⟨v, rfl⟩

theorem setupPin_pins_cases (m : ConfiguredPins) (pin : Nat)
    (name choice : String) (hw : Hw) :
    (setupPin m pin name choice hw).pins = m ∨
    ∃ c, (setupPin m pin name choice hw).pins = setPin m pin c := by
  unfold setupPin
  split_ifs <;>
    first
      | exact Or.inl rfl
      | exact Or.inr ⟨_, rfl⟩

/-- C7: a `ConfigurePin` request whose pin number is not a valid logical
GPIO id fails with `UnknownPin` before any hardware call, adds no map
entry, and performs no file write: `setup_pin` validates the number
against the non-null BCM ids of `PIN_MAP` first and returns at once. -/
theorem c7_unknown_pin_rejected (m : ConfiguredPins) (pin : Nat)
    (name choice : String) (hw : Hw) (h : pin ∉ validPins) :
    (setupPin m pin name choice hw).err = some Err.unknownPin ∧
    (setupPin m pin name choice hw).pins = m ∧
    (setupPin m pin name choice hw).calls = [] ∧
    (setupPin m pin name choice hw).saves = 0 := by
  simp [setupPin, h]

/-- Witness for C7: pin 99 is not a valid BCM id, and configuring it on
an empty session changes nothing. -/
theorem c7_unknown_pin_rejected_witness :
    99 ∉ validPins ∧
    ((setupPin [] 99 "" "2" allOkHw).err = some Err.unknownPin ∧
     (setupPin [] 99 "" "2" allOkHw).pins = [] ∧
     (setupPin [] 99 "" "2" allOkHw).calls = [] ∧
     (setupPin [] 99 "" "2" allOkHw).saves = 0) :=
  ⟨by decide, c7_unknown_pin_rejected [] 99 "" "2" allOkHw (by decide)⟩

/-- C10: the topology table covers the physical positions 1..40 exactly
once each, its non-null BCM ids are pairwise distinct and are exactly
0..27, and `setup_pin` rejects a pin with `UnknownPin` precisely when it
is not one of those ids — so the power and ground positions, which carry
no BCM id, can never be configured. -/
theorem c10_pin_map_topology :
    PIN_MAP.map Prod.fst = (List.range 40).map (· + 1) ∧
    validPins.length = 28 ∧
    validPins.Nodup ∧
    List.insertionSort (· ≤ ·) validPins = List.range 28 ∧
    (∀ (m : ConfiguredPins) (pin : Nat) (name choice : String) (hw : Hw),
      (setupPin m pin name choice hw).err = some Err.unknownPin ↔
        pin ∉ validPins) := by
  refine ⟨by decide, by decide, by decide, by decide, ?_⟩
  intro m pin name choice hw
  constructor
  · intro he
    by_contra hmem
    simp only [setupPin, if_pos hmem] at he
    split_ifs at he <;> simp_all
  · intro h
    simp [setupPin, h]

/-- C8: both termination paths — the operator quitting and the keyboard
interrupt — attempt the configuration save first and the hardware release
second, whatever the outcome of either step: the save cannot raise (its
body catches everything and returns a boolean) and a raising release
happens after the save has already run. -/
theorem c8_exit_persist_then_release (hw : Hw) :
    (∃ rest, quitExit hw =
        ExitEvent.saveAttempt :: ExitEvent.releaseAttempt :: rest) ∧
    interruptExit hw =
      [ExitEvent.saveAttempt, ExitEvent.releaseAttempt] := by
  constructor
  · by_cases h : hw.cleanupOk = true
    · exact ⟨[], by simp [quitExit, saveConfigCall, releaseCall, h]⟩
    · exact ⟨[ExitEvent.releaseAttempt],
        by simp [quitExit, saveConfigCall, releaseCall, h]⟩
  · by_cases h : hw.cleanupOk = true <;>
      simp [interruptExit, saveConfigCall, releaseCall, h]

/-- C1: after a successful `ConfigurePin(p, output, ...)` and after a
restore of any persisted snapshot entry marked `output`, the hardware is
driven LOW (`GPIO.output(p, LOW)` is among the calls made) and the cached
state of `p` is LOW — whatever level the snapshot recorded and whatever
the map held before. -/
theorem c1_outputs_low_after_configure_and_restore (m : ConfiguredPins)
    (pin : Nat) (name : String) (hw : Hw)
    (data : List (Nat × SavedEntry)) (cfg : SavedEntry)
    (hv : pin ∈ validPins) (hs : hw.setupOk pin = true)
    (ho : hw.outputOk pin = true) (hnd : (data.map Prod.fst).Nodup)
    (hmem : (pin, cfg) ∈ data) (hd : cfg.direction = "output") :
    (lookupPin (setupPin m pin name "1" hw).pins pin =
        some { direction := "output", state := some LOW, pull := none,
               name := name } ∧
      HwCall.output pin LOW ∈ (setupPin m pin name "1" hw).calls) ∧
    (lookupPin (loadConfig data hw).1 pin =
        some { direction := "output", state := some LOW, pull := none,
               name := cfg.name } ∧
      HwCall.output pin LOW ∈ (loadConfig data hw).2) := by
  refine ⟨⟨?_, ?_⟩, ?_, ?_⟩
  · simp only [setupPin, if_pos hv, if_pos rfl, if_pos hs, if_pos ho]
    exact lookupPin_setPin_self m pin (outCfg name)
  · simp [setupPin, hv, hs, ho]
  · exact loadLoop_lookup_output hw data [] pin cfg hnd hmem hd hs ho
  · exact loadLoop_output_trace hw data [] pin cfg hmem hd hs ho

/-- Witness for C1: configuring pin 17 as output, and restoring a
snapshot that stubbornly records pin 17 at HIGH, both leave pin 17 LOW
and drive the hardware LOW. -/
theorem c1_outputs_low_witness :
    (lookupPin (setupPin [] 17 "relay" "1" allOkHw).pins 17 =
        some { direction := "output", state := some LOW, pull := none,
               name := "relay" } ∧
      HwCall.output 17 LOW ∈ (setupPin [] 17 "relay" "1" allOkHw).calls) ∧
    (lookupPin (loadConfig c1data allOkHw).1 17 =
        some { direction := "output", state := some LOW, pull := none,
               name := "relay" } ∧
      HwCall.output 17 LOW ∈ (loadConfig c1data allOkHw).2) :=
  c1_outputs_low_after_configure_and_restore [] 17 "relay" allOkHw c1data
    { direction := "output", pull := "none", name := "relay",
      state := some HIGH }
    (by decide) rfl rfl (by decide) (by decide) rfl

/-- C2: for a valid snapshot, saving what was loaded reproduces the
persisted fields `direction`, `pull` and `name` of every pin unchanged,
and a file produced by `save_config` never contains a level/state field
for any pin. -/
theorem c2_save_load_round_trip (s : List (Nat × SavedEntry))
    (h : validSnapshot s) :
    (saveConfig (loadConfig s allOkHw).1).map
        (fun e => (e.1, e.2.direction, e.2.pull, e.2.name)) =
      s.map (fun e => (e.1, e.2.direction, e.2.pull, e.2.name)) ∧
    ∀ (m : ConfiguredPins), ∀ e ∈ saveConfig m, e.2.state = none := by
  constructor
  · rw [loadConfig, loadLoop_allOk s [] h.1 (fun p _ => by simp [keys])]
    rw [List.nil_append]
    unfold saveConfig
    rw [List.map_map, List.map_map]
    apply map_eq_of_forall
    intro e he
    obtain ⟨hdir, hpull⟩ := h.2 e he
    rcases hdir with hin | hout
    · simp [Function.comp, loadedEntry, hin]
    · simp [Function.comp, loadedEntry, hout, hpull hout]
  · intro m e he
    unfold saveConfig at he
    rw [List.mem_map] at he
    obtain ⟨a, _, rfl⟩ := he
    rfl

/-- Witness for C2: the two-pin snapshot round-trips exactly. -/
theorem c2_save_load_round_trip_witness :
    validSnapshot c2snap ∧
    ((saveConfig (loadConfig c2snap allOkHw).1).map
        (fun e => (e.1, e.2.direction, e.2.pull, e.2.name)) =
      c2snap.map (fun e => (e.1, e.2.direction, e.2.pull, e.2.name)) ∧
    ∀ (m : ConfiguredPins), ∀ e ∈ saveConfig m, e.2.state = none) :=
  ⟨by decide, c2_save_load_round_trip c2snap (by decide)⟩

/-- C3 counterexample: pin 2 is already configured (input, pull-up,
named "a"); reconfiguring it as an output on hardware where `GPIO.setup`
succeeds but the immediate `GPIO.output(pin, LOW)` raises surfaces the
fault and skips the save, yet the in-memory entry is no longer the prior
one — `setup_pin` replaces the dictionary entry before the LOW write, so
a hardware failure inside ConfigurePin does not leave the prior state
unchanged, contrary to the claim. -/
theorem c3_counterexample :
    (setupPin [(2, c3prior)] 2 "b" "1" c3hw).err =
        some Err.hardwareFault ∧
    (setupPin [(2, c3prior)] 2 "b" "1" c3hw).saves = 0 ∧
    lookupPin [(2, c3prior)] 2 = some c3prior ∧
    lookupPin (setupPin [(2, c3prior)] 2 "b" "1" c3hw).pins 2 ≠
      some c3prior := by
  decide

/-- C3 amended: a failing hardware `setup` call leaves the map, the save
count and the prior entry untouched for every direction choice and the
fault is surfaced; but when `setup` succeeds and only the initialize-LOW
write fails on an output configuration, the dictionary entry has already
been replaced by the new output record (state LOW) — the fault is still
surfaced and the file is still not rewritten. -/
theorem c3_amended (m : ConfiguredPins) (pin : Nat) (name : String)
    (hw : Hw) (hv : pin ∈ validPins) :
    (hw.setupOk pin = false →
      ∀ choice, choice = "1" ∨ choice = "2" ∨ choice = "3" ∨
          choice = "4" →
        (setupPin m pin name choice hw).pins = m ∧
        (setupPin m pin name choice hw).saves = 0 ∧
        (setupPin m pin name choice hw).err = some Err.hardwareFault) ∧
    (hw.setupOk pin = true → hw.outputOk pin = false →
        (setupPin m pin name "1" hw).pins = setPin m pin (outCfg name) ∧
        (setupPin m pin name "1" hw).saves = 0 ∧
        (setupPin m pin name "1" hw).err = some Err.hardwareFault) := by
  constructor
  · intro hsf choice hc
    have hs' : ¬ hw.setupOk pin = true := by simp [hsf]
    rcases hc with rfl | rfl | rfl | rfl <;> simp [setupPin, hv, hs']
  · intro hst hof
    have ho' : ¬ hw.outputOk pin = true := by simp [hof]
    simp [setupPin, hv, hst, ho']

/-- Witness for C3's amended statement: the output-write-failure case at
pin 2 on the fault-injecting hardware. -/
theorem c3_amended_witness :
    (setupPin [(2, c3prior)] 2 "b" "1" c3hw).pins =
        setPin [(2, c3prior)] 2 (outCfg "b") ∧
    (setupPin [(2, c3prior)] 2 "b" "1" c3hw).saves = 0 ∧
    (setupPin [(2, c3prior)] 2 "b" "1" c3hw).err =
      some Err.hardwareFault :=
  (c3_amended [(2, c3prior)] 2 "b" c3hw (by decide)).2 rfl rfl

/-- C4 counterexample: when no output pin is configured,
`set_all_outputs` takes the early `if not output_pins` branch and never
calls `save_config`, so the configuration is not "persisted exactly once"
on that call. -/
theorem c4_counterexample :
    outputPinsOf c4onlyInput = [] ∧
    (setAllOutputs c4onlyInput HIGH allOkHw).saves = 0 ∧
    ¬ (setAllOutputs c4onlyInput HIGH allOkHw).saves = 1 := by
  decide

/-- C4 amended: `set_all_outputs` visits exactly the configured output
pins in ascending order, a pin whose hardware write fails keeps its prior
cached level and is reported while iteration continues, a successful pin
is set to the requested level, and the configuration is persisted exactly
once after the loop — provided at least one output pin exists; with none,
the operation persists nothing. -/
theorem c4_amended (m : ConfiguredPins) (lvl : Nat) (hw : Hw)
    (hnd : (keys m).Nodup) :
    (setAllOutputs m lvl hw).calls =
        (sortedOutputPins m).map (fun p => HwCall.output p lvl) ∧
    List.Sorted (· ≤ ·) (sortedOutputPins m) ∧
    (sortedOutputPins m).Perm (outputPinsOf m) ∧
    (∀ p ∈ sortedOutputPins m, hw.outputOk p = false →
        lookupPin (setAllOutputs m lvl hw).pins p = lookupPin m p ∧
        p ∈ (setAllOutputs m lvl hw).failed) ∧
    (∀ p ∈ sortedOutputPins m, hw.outputOk p = true →
        lookupPin (setAllOutputs m lvl hw).pins p =
          (lookupPin m p).map fun c => { c with state := some lvl }) ∧
    (setAllOutputs m lvl hw).saves =
      (if sortedOutputPins m = [] then 0 else 1) := by
  have hnodup : (sortedOutputPins m).Nodup :=
    (List.perm_insertionSort (· ≤ ·) (outputPinsOf m)).symm.nodup
      (outputPinsOf_nodup m hnd)
  refine ⟨?_, ?_, ?_, ?_, ?_, ?_⟩
  · by_cases hout : List.insertionSort (· ≤ ·) (outputPinsOf m) = []
    · simp [setAllOutputs, sortedOutputPins, hout]
    · simp only [setAllOutputs, if_neg hout, sortedOutputPins]
      exact setAllLoop_calls hw lvl _ m
  · exact List.sorted_insertionSort _ _
  · exact List.perm_insertionSort _ _
  · intro p hp hfail
    by_cases hout : List.insertionSort (· ≤ ·) (outputPinsOf m) = []
    · rw [sortedOutputPins, hout] at hp
      cases hp
    · constructor
      · simp only [setAllOutputs, if_neg hout]
        rw [setAllLoop_lookup_mem hw lvl
            (List.insertionSort (· ≤ ·) (outputPinsOf m)) m p hnodup hp,
          if_neg (by simp [hfail])]
      · simp only [setAllOutputs, if_neg hout]
        rw [setAllLoop_failed, List.mem_filter]
        exact ⟨hp, by simp [hfail]⟩
  · intro p hp hok
    by_cases hout : List.insertionSort (· ≤ ·) (outputPinsOf m) = []
    · rw [sortedOutputPins, hout] at hp
      cases hp
    · simp only [setAllOutputs, if_neg hout]
      rw [setAllLoop_lookup_mem hw lvl
          (List.insertionSort (· ≤ ·) (outputPinsOf m)) m p hnodup hp,
        if_pos hok]
  · by_cases hout : List.insertionSort (· ≤ ·) (outputPinsOf m) = []
    · simp [setAllOutputs, sortedOutputPins, hout]
    · simp [setAllOutputs, sortedOutputPins, hout]

/-- Witness for C4's amended statement: outputs 2 and 3 with a fault
injected on pin 3 — both pins are visited in order and exactly one save
is attempted. -/
theorem c4_amended_witness :
    (setAllOutputs c4m HIGH c4hw).calls =
        (sortedOutputPins c4m).map (fun p => HwCall.output p HIGH) ∧
    (setAllOutputs c4m HIGH c4hw).saves =
      (if sortedOutputPins c4m = [] then 0 else 1) :=
  ⟨(c4_amended c4m HIGH c4hw (by decide)).1,
   (c4_amended c4m HIGH c4hw (by decide)).2.2.2.2.2⟩

/-- C5 counterexample: pin 2 is configured as an input; the control
operation on it does not fail with WrongDirection — it performs a live
hardware read (one `GPIO.input` call) and mutates the map by caching the
read level into the entry's state field, contrary to the claim that a
level write on an input pin fails with no state mutation and no hardware
call. -/
theorem c5_counterexample :
    (controlPin c5m 2 "1" c5hwHigh).err ≠ some Err.wrongDirection ∧
    (controlPin c5m 2 "1" c5hwHigh).calls = [HwCall.input 2] ∧
    (controlPin c5m 2 "1" c5hwHigh).pins ≠ c5m := by
  decide

/-- C5 amended: the code dispatches on the configured direction instead
of failing with WrongDirection — an output pin's level is answered from
its cached state with no hardware read anywhere (control, details view or
status symbol), and the control path on an input pin never issues a
hardware write and never saves; it performs a live read and caches it. -/
theorem c5_amended (m : ConfiguredPins) (pin : Nat) (choice : String)
    (hw : Hw) (cfg : PinCfg) (hc : lookupPin m pin = some cfg) :
    (cfg.direction = "output" →
        (∀ q, HwCall.input q ∉ (controlPin m pin choice hw).calls) ∧
        (pinDetailsState cfg pin hw).2 = [] ∧
        (pinDetailsState cfg pin hw).1 =
          (if cfg.state = some HIGH then "HIGH" else "LOW") ∧
        (getPinStatusSymbol m pin hw).2 = []) ∧
    (cfg.direction ≠ "output" →
        (controlPin m pin choice hw).saves = 0 ∧
        (∀ q l, HwCall.output q l ∉ (controlPin m pin choice hw).calls) ∧
        (controlPin m pin choice hw).err ≠ some Err.wrongDirection) := by
  constructor
  · intro hd
    refine ⟨?_, ?_, ?_, ?_⟩
    · intro q
      simp only [controlPin, hc, if_pos hd]
      split_ifs <;> simp
    · simp [pinDetailsState, hd]
    · simp [pinDetailsState, hd]
    · simp only [getPinStatusSymbol, hc, if_pos hd]
      split_ifs <;> rfl
  · intro hd
    have hd' : ¬ cfg.direction = "output" := hd
    refine ⟨?_, ?_, ?_⟩
    · simp only [controlPin, hc, if_neg hd']
      cases hr : hw.inputRes pin <;> simp
    · intro q l
      simp only [controlPin, hc, if_neg hd']
      cases hr : hw.inputRes pin <;> simp
    · simp only [controlPin, hc, if_neg hd']
      cases hr : hw.inputRes pin <;> simp

/-- Witness for C5's amended statement: the output-configured pin 17 —
no hardware read happens anywhere in control, details or status view. -/
theorem c5_amended_witness :
    (∀ q, HwCall.input q ∉ (controlPin c5out 17 "1" allOkHw).calls) ∧
    (pinDetailsState (outCfg "x") 17 allOkHw).2 = [] ∧
    (pinDetailsState (outCfg "x") 17 allOkHw).1 =
      (if (outCfg "x").state = some HIGH then "HIGH" else "LOW") ∧
    (getPinStatusSymbol c5out 17 allOkHw).2 = [] :=
  (c5_amended c5out 17 "1" allOkHw (outCfg "x") rfl).1 rfl

/-- C6: a confirmed cleanup releases the hardware, empties the in-memory
map, persists an empty snapshot, after it every control operation on any
pin fails NotConfigured, and no other session operation — configure,
control, rename, bulk-set, read-all, restore — ever removes a key from
the map. -/
theorem c6_cleanup_only_removal (m : ConfiguredPins) (hw : Hw)
    (h : hw.cleanupOk = true) :
    (cleanupAll m "yes" hw).pins = [] ∧
    (cleanupAll m "yes" hw).calls = [HwCall.cleanup] ∧
    (cleanupAll m "yes" hw).saves = 1 ∧
    saveConfig (cleanupAll m "yes" hw).pins = [] ∧
    (∀ pin choice hw2,
        (controlPin (cleanupAll m "yes" hw).pins pin choice hw2).err =
          some Err.notConfigured) ∧
    (∀ (m2 : ConfiguredPins) pin name choice hw2, ∀ p ∈ keys m2,
        p ∈ keys (setupPin m2 pin name choice hw2).pins) ∧
    (∀ (m2 : ConfiguredPins) pin choice hw2, ∀ p ∈ keys m2,
        p ∈ keys (controlPin m2 pin choice hw2).pins) ∧
    (∀ (m2 : ConfiguredPins) pin nn, ∀ p ∈ keys m2,
        p ∈ keys (renamePin m2 pin nn).pins) ∧
    (∀ (m2 : ConfiguredPins) lvl hw2, ∀ p ∈ keys m2,
        p ∈ keys (setAllOutputs m2 lvl hw2).pins) ∧
    (∀ (m2 : ConfiguredPins) hw2, ∀ p ∈ keys m2,
        p ∈ keys (readAllInputs m2 hw2).pins) ∧
    (∀ (data : List (Nat × SavedEntry)) (m2 : ConfiguredPins) hw2,
        ∀ p ∈ keys m2, p ∈ keys (loadLoop hw2 data m2).1) := by
  refine ⟨?_, ?_, ?_, ?_, ?_, ?_, ?_, ?_, ?_, ?_, ?_⟩
  · simp [cleanupAll, h]
  · simp [cleanupAll, h]
  · simp [cleanupAll, h]
  · simp [cleanupAll, h, saveConfig]
  · intro pin choice hw2
    simp [cleanupAll, h, controlPin, lookupPin]
  · intro m2 pin name choice hw2 p hp
    rcases setupPin_pins_cases m2 pin name choice hw2 with hcase | ⟨c, hcase⟩
    · rw [hcase]
      exact hp
    · rw [hcase]
      exact (mem_keys_setPin m2 pin c p).mpr (Or.inl hp)
  · intro m2 pin choice hw2 p hp
    rcases controlPin_pins_cases m2 pin choice hw2 with hcase | ⟨v, hcase⟩
    · rw [hcase]
      exact hp
    · rw [hcase, keys_updState]
      exact hp
  · intro m2 pin nn p hp
    cases hl : lookupPin m2 pin with
    | none =>
      simp only [renamePin, hl]
      exact hp
    | some c =>
      simp only [renamePin, hl, keys_updName]
      exact hp
  · intro m2 lvl hw2 p hp
    rw [keys_setAllOutputs]
    exact hp
  · intro m2 hw2 p hp
    rw [keys_readAllInputs]
    exact hp
  · intro data m2 hw2 p hp
    exact loadLoop_keys_mono hw2 data m2 p hp

/-- Witness for C6: cleaning up a session with three configured pins. -/
theorem c6_cleanup_only_removal_witness :
    (cleanupAll c6m "yes" allOkHw).pins = [] ∧
    (cleanupAll c6m "yes" allOkHw).calls = [HwCall.cleanup] :=
  ⟨(c6_cleanup_only_removal c6m allOkHw rfl).1,
   (c6_cleanup_only_removal c6m allOkHw rfl).2.1⟩

/-- C9 counterexample: the symbol rendered for a configured input pin
whose hardware read raises is exactly the symbol of an unconfigured pin
(the gray open circle) — the read-error outcome is not a distinct sixth
display value as the claim asserts. -/
theorem c9_counterexample :
    lookupPin c5m 2 ≠ none ∧
    lookupPin ([] : ConfiguredPins) 2 = none ∧
    (getPinStatusSymbol c5m 2 c9hwFail).1 =
      (getPinStatusSymbol ([] : ConfiguredPins) 2 c9hwFail).1 :=
  ⟨by decide, rfl, rfl⟩

/-- C9 amended: the status symbol is a total pure view — it always
returns one of five concrete strings instead of propagating an exception,
touches hardware only through `GPIO.input` on the probed pin and never
writes or saves; but a failing input read renders the same gray open
circle as an unconfigured pin rather than a distinct ReadError value. -/
theorem c9_amended (m : ConfiguredPins) (pin : Nat) (hw : Hw) :
    (getPinStatusSymbol m pin hw).1 ∈
        [grayCircle, greenDot, redDot, blueDot, grayDot] ∧
    (∀ c ∈ (getPinStatusSymbol m pin hw).2, c = HwCall.input pin) ∧
    (∀ cfg, lookupPin m pin = some cfg → cfg.direction ≠ "output" →
        hw.inputRes pin = none →
        (getPinStatusSymbol m pin hw).1 = grayCircle) ∧
    (lookupPin m pin = none →
        (getPinStatusSymbol m pin hw).1 = grayCircle ∧
        (getPinStatusSymbol m pin hw).2 = []) := by
  have hcalls : (getPinStatusSymbol m pin hw).2 = [] ∨
      (getPinStatusSymbol m pin hw).2 = [HwCall.input pin] := by
    cases hl : lookupPin m pin with
    | none =>
      left
      simp [getPinStatusSymbol, hl]
    | some cfg =>
      by_cases hd : cfg.direction = "output"
      · left
        simp only [getPinStatusSymbol, hl, if_pos hd]
        split_ifs <;> rfl
      · simp only [getPinStatusSymbol, hl, if_neg hd]
        cases hr : hw.inputRes pin with
        | none =>
          right
          rfl
        | some v =>
          right
          by_cases hv : v ≠ 0 <;> simp [hv]
  refine ⟨?_, ?_, ?_, ?_⟩
  · cases hl : lookupPin m pin with
    | none => simp [getPinStatusSymbol, hl]
    | some cfg =>
      by_cases hd : cfg.direction = "output"
      · simp only [getPinStatusSymbol, hl, if_pos hd]
        split_ifs <;> simp
      · simp only [getPinStatusSymbol, hl, if_neg hd]
        cases hr : hw.inputRes pin with
        | none => simp
        | some v => by_cases hv : v ≠ 0 <;> simp [hv]
  · intro c hcm
    rcases hcalls with hc0 | hc1
    · rw [hc0] at hcm
      cases hcm
    · rw [hc1] at hcm
      simpa using hcm
  · intro cfg hl hd hr
    simp [getPinStatusSymbol, hl, hd, hr]
  · intro hl
    simp [getPinStatusSymbol, hl]

/-- Witness for C9's amended statement: probing the input-configured pin
2 on hardware whose reads raise yields the gray open circle. -/
theorem c9_amended_witness :
    (getPinStatusSymbol c5m 2 c9hwFail).1 ∈
        [grayCircle, greenDot, redDot, blueDot, grayDot] ∧
    (∀ c ∈ (getPinStatusSymbol c5m 2 c9hwFail).2, c = HwCall.input 2) ∧
    (getPinStatusSymbol c5m 2 c9hwFail).1 = grayCircle :=
  ⟨(c9_amended c5m 2 c9hwFail).1, (c9_amended c5m 2 c9hwFail).2.1,
   (c9_amended c5m 2 c9hwFail).2.2.1 (inCfg "none" "") rfl (by decide) rfl⟩

end RpiGpio
